import Mathlib

/-!
Verification of the functional core of `src/app_update2.py` (EigenFlow
subscription dashboard).  Python strings are embedded as `List Char`,
pandas data frames as a column list plus a list of cell rows, HTTP
fetches as an explicit outcome value, and the Streamlit session store as
an association list.  All definitions are translated from the source
file; the single definition that follows the specification text instead
is marked `Modelled from the spec` in its doc comment.
-/

set_option maxRecDepth 4000

/-- Python strings are modelled as lists of characters. -/
abbrev Str := List Char

/-- Decimal digit character for `n < 10` (`chr(48 + n)`). -/
def digitChar (n : Nat) : Char := Char.ofNat (48 + n)

/-- Numeric value of a decimal digit character. -/
def digitVal (c : Char) : Nat := c.toNat - 48

/-- Fuel-driven digit expansion; the fuel only forces structural
recursion and is irrelevant once it is at least the argument. -/
def natDigitsAux : Nat → Nat → Str
  | 0, n => [digitChar n]
  | fuel + 1, n =>
    if n < 10 then [digitChar n]
    else natDigitsAux fuel (n / 10) ++ [digitChar (n % 10)]

/-- Decimal digit string of a natural number, most significant digit first. -/
def natDigits (n : Nat) : Str := natDigitsAux n n

/-- Value of a decimal digit string (no sign handling). -/
def parseDigits (l : Str) : Nat :=
  l.foldl (fun a c => a * 10 + digitVal c) 0

/-- Python `str.zfill`-style left padding with `'0'` to width `w`
(the sign-aware variant is `pyZfill`). -/
def zfill (w : Nat) (l : Str) : Str :=
  List.replicate (w - l.length) '0' ++ l

/-- Python `str.zfill(w)`: pads with zeros after a leading sign, if any. -/
def pyZfill (w : Nat) (l : Str) : Str :=
  match l with
  | c :: rest => if c = '+' ∨ c = '-' then c :: zfill (w - 1) rest else zfill w l
  | [] => zfill w l

/-- Split a character list on a separator, like Python `str.split(sep)`. -/
def splitOnChar (sep : Char) : Str → List Str
  | [] => [[]]
  | c :: rest =>
    match splitOnChar sep rest with
    | [] => [[c]]
    | h :: t => if c = sep then [] :: h :: t else (c :: h) :: t

/-- Characters stripped by Python `str.strip()` with no arguments. -/
def isPySpace (c : Char) : Bool :=
  c = ' ' || c = '\t' || c = '\n' || c = '\r' || c = '\x0b' || c = '\x0c'

/-- Python `str.strip()`: drop leading and trailing whitespace. -/
def pyStrip (l : Str) : Str :=
  ((l.dropWhile isPySpace).reverse.dropWhile isPySpace).reverse

/-- Python `str.upper()` (ASCII, which covers every key in the program). -/
def pyUpper (l : Str) : Str := l.map Char.toUpper

/-- Lookup in an association list of strings, modelling a Python `dict.get`. -/
def assocGet : List (Str × Str) → Str → Option Str
  | [], _ => none
  | (k', v) :: t, k => if k' = k then some v else assocGet t k

/-- Update of an association list, modelling Python `dict[k] = v`. -/
def assocSet : List (Str × Str) → Str → Str → List (Str × Str)
  | [], k, v => [(k, v)]
  | (k', v') :: t, k, v => if k' = k then (k, v) :: t else (k', v') :: assocSet t k v

/-- Proleptic Gregorian calendar date, as handled by `datetime`. -/
structure Date where
  year : Nat
  month : Nat
  day : Nat
deriving DecidableEq, Repr

/-- Gregorian leap-year rule used by `datetime`. -/
def isLeapYear (y : Nat) : Bool :=
  y % 4 == 0 && (y % 100 != 0 || y % 400 == 0)

/-- Number of days in a month of the Gregorian calendar. -/
def daysInMonth (y m : Nat) : Nat :=
  if m = 2 then (if isLeapYear y then 29 else 28)
  else if m = 4 ∨ m = 6 ∨ m = 9 ∨ m = 11 then 30 else 31

/-- Dates representable by Python `datetime` (year 1–9999, real day of month). -/
def Date.Valid (d : Date) : Prop :=
  1 ≤ d.year ∧ d.year ≤ 9999 ∧ 1 ≤ d.month ∧ d.month ≤ 12 ∧
    1 ≤ d.day ∧ d.day ≤ daysInMonth d.year d.month

instance (d : Date) : Decidable d.Valid := by
  unfold Date.Valid; infer_instance

/-- Python `now.strftime(chr(37) ++ "Y-" ++ ...)`: the `YYYY-MM-DD` rendering
used at `app_update2.py:193`. -/
def formatDate (d : Date) : Str :=
  zfill 4 (natDigits d.year) ++ ('-' :: (zfill 2 (natDigits d.month) ++ ('-' :: zfill 2 (natDigits d.day))))

/-- Python `datetime.strptime(s, "Y-m-d" directives)` at `app_update2.py:198`:
accepts one to four year digits and one or two month/day digits, and
validates calendar ranges, returning `none` where `strptime` raises. -/
def parseDateParts (ys ms ds : Str) : Option Date :=
  if ys ≠ [] ∧ ys.length ≤ 4 ∧ (∀ c ∈ ys, c.isDigit) ∧
     ms ≠ [] ∧ ms.length ≤ 2 ∧ (∀ c ∈ ms, c.isDigit) ∧
     ds ≠ [] ∧ ds.length ≤ 2 ∧ (∀ c ∈ ds, c.isDigit) then
    let y := parseDigits ys
    let m := parseDigits ms
    let dd := parseDigits ds
    if 1 ≤ y ∧ y ≤ 9999 ∧ 1 ≤ m ∧ m ≤ 12 ∧ 1 ≤ dd ∧ dd ≤ daysInMonth y m then
      some ⟨y, m, dd⟩
    else none
  else none

/-- Date parsing dispatch: anything that does not split into exactly three
dash-separated groups is rejected, as `strptime` would raise. -/
def parseDate (s : Str) : Option Date :=
  match splitOnChar '-' s with
  | [ys, ms, ds] => parseDateParts ys ms ds
  | _ => none

/-- Day number of a date (days since 1970-01-01, Howard Hinnant's civil
formula).  `(now - first_date).days` in the source equals the difference
of the two day numbers, because `first_date` is a midnight and the
fractional part of the difference is then nonnegative and below one day. -/
def Date.rataDie (dt : Date) : Int :=
  let y : Int := (dt.year : Int)
  let m : Int := (dt.month : Int)
  let d : Int := (dt.day : Int)
  let yy : Int := if m ≤ 2 then y - 1 else y
  let era : Int := Int.fdiv yy 400
  let yoe : Int := yy - era * 400
  let mp : Int := Int.emod (m + 9) 12
  let doy : Int := Int.fdiv (153 * mp + 2) 5 + d - 1
  let doe : Int := yoe * 365 + Int.fdiv yoe 4 - Int.fdiv yoe 100 + doy
  era * 146097 + doe - 719468

/-- Modelled from the spec: the Date Mapper of spec section 4.3
("unconditionally adds one calendar day"); no such computation appears
anywhere in `src/app_update2.py`, so this definition follows the
specification's words and exists only to be compared with the source's
`load_regime_history`. -/
def specEffectiveDate (d : Date) : Date :=
  if d.day < daysInMonth d.year d.month then ⟨d.year, d.month, d.day + 1⟩
  else if d.month < 12 then ⟨d.year, d.month + 1, 1⟩
  else ⟨d.year + 1, 1, 1⟩

-- ------------------------------------------------------------------
-- Cells, data frames and numeric parsing/formatting
-- ------------------------------------------------------------------

/-- One pandas cell: a string, an integer, a float (modelled as a rational
restricted to the decimal values the program handles), or NaN/None. -/
inductive Cell where
  | str (s : Str)
  | int (n : Int)
  | num (q : ℚ)
  | nan
deriving DecidableEq, Repr

/-- A pandas `DataFrame`: header names plus rows of cells, one cell per
column position. -/
structure DataFrame where
  columns : List Str
  rows : List (List Cell)
deriving DecidableEq, Repr

/-- Python `pd.DataFrame()`, the value every failed CSV loader returns. -/
def emptyDF : DataFrame := ⟨[], []⟩

/-- Pandas `df.empty`: true when either axis has length zero. -/
def dfEmpty (df : DataFrame) : Bool :=
  df.rows.isEmpty || df.columns.isEmpty

/-- Column-name normalisation `df.columns = df.columns.str.strip()` shared by
`load_web_top10` and `load_regime_history`. -/
def stripColumns (df : DataFrame) : DataFrame :=
  { df with columns := df.columns.map pyStrip }

/-- Pandas `row.get(c, dflt)`: value at the column named `c`, else the
default. -/
def rowGet (cols : List Str) (row : List Cell) (c : Str) (dflt : Cell) : Cell :=
  match cols.indexOf? c with
  | none => dflt
  | some i => (row.get? i).getD Cell.nan

/-- Cell of the column named `c` in a row of `df`, when that column exists. -/
def getCellByName (df : DataFrame) (row : List Cell) (c : Str) : Option Cell :=
  (df.columns.indexOf? c).bind row.get?

/-- Decimal rendering of an integer, as `str` of a Python `int`. -/
def intToStr (n : Int) : Str :=
  (if n < 0 then ['-'] else []) ++ natDigits n.natAbs

/-- Python `str` of a float, for the finite-decimal values the program
feeds it (a float such as `3.25` prints as `"3.25"`, `3.0` as `"3.0"`);
non-decimal rationals cannot arise from the embedded inputs and get a
harmless fallback rendering.  A reduced rational is integral after
scaling by `10 ^ k` exactly when its denominator divides `10 ^ k`. -/
def ratToStr (q : ℚ) : Str :=
  match (List.range 31).find? (fun k => 10 ^ k % q.den == 0) with
  | some k =>
    let n : Int := q.num * ((10 ^ k / q.den : Nat) : Int)
    let a : Str := natDigits n.natAbs
    let body : Str :=
      if k = 0 then a ++ ['.', '0']
      else
        let s := zfill (k + 1) a
        s.take (s.length - k) ++ ('.' :: s.drop (s.length - k))
    (if n < 0 then ['-'] else []) ++ body
  | none => natDigits q.den

/-- Python `str(cell)` as it occurs in the rendering code. -/
def pyStrOfCell : Cell → Str
  | .str s => s
  | .int n => intToStr n
  | .num q => ratToStr q
  | .nan => "nan".toList

/-- Unsigned decimal-numeral parsing, the core of Python `float(s)` for
the plain decimal numerals this program feeds it (`"3"`, `"3.25"`,
`".5"`, `"5."`). -/
def parseUnsignedFloat (l : Str) : Option ℚ :=
  match splitOnChar '.' l with
  | [ip] =>
    if ip ≠ [] ∧ (∀ c ∈ ip, c.isDigit) then some (mkRat (parseDigits ip) 1) else none
  | [ip, fp] =>
    if (ip ≠ [] ∨ fp ≠ []) ∧ (∀ c ∈ ip, c.isDigit) ∧ (∀ c ∈ fp, c.isDigit) then
      some (mkRat (parseDigits ip * 10 ^ fp.length + parseDigits fp) (10 ^ fp.length))
    else none
  | _ => none

/-- Python `float(s)` on decimal numerals with an optional sign; `none`
models the `ValueError` that the callers catch. -/
def parseFloat? (l : Str) : Option ℚ :=
  match l with
  | '+' :: rest => parseUnsignedFloat rest
  | '-' :: rest => (parseUnsignedFloat rest).map (fun q => -q)
  | _ => parseUnsignedFloat l

/-- Rounding of the fraction `num / den` to the nearest natural number,
halves up (the floor of `num / den + 1 / 2`). -/
def halfUpNat (num den : Nat) : Nat := (2 * num + den) / (2 * den)

/-- Python fixed-point formatting `f"{v:.2f}"` on the embedded rational
value: sign, then the magnitude `|v| * 100 = (v.num.natAbs * 100) / v.den`
rounded to a natural number and printed as integer digits, point, two
fractional digits.  Half-way values are rounded up where CPython's
binary doubles round to even; the program never formats such a value. -/
def formatFixed2 (v : ℚ) : Str :=
  let n : Nat := halfUpNat (v.num.natAbs * 100) v.den
  (if v < 0 then ['-'] else []) ++
    (natDigits (n / 100) ++ ('.' :: zfill 2 (natDigits (n % 100))))

-- ------------------------------------------------------------------
-- Module constants and data loaders (app_update2.py lines 39-157)
-- ------------------------------------------------------------------

/-- Outcome of one `requests.get(url, timeout=10)` plus body parsing:
`error` is any raised exception (network error, timeout); on a response,
`parsed = none` means the body parser (`resp.json()` / `pd.read_csv`)
raised. -/
inductive HttpResult (α : Type) where
  | error
  | ok (status : Nat) (parsed : Option α)

/-- String constants bound at module level (app_update2.py lines 39-41).
`LATEST_URL` and `REGIME_LATEST_URL`, which `load_latest_dir` and
`load_regime_latest` read, are absent: referencing them raises
`NameError`. -/
def moduleUrlConstants : List (Str × Str) :=
  [("REGIME_SNAPSHOT_TEMPLATE".toList, "regime_snapshot.json".toList),
   ("WEB_TOP10_TEMPLATE".toList, "web_top10.csv".toList),
   ("REGIME_HISTORY_URL".toList, "regime_history.csv".toList)]

/-- Every name bound at the top level of the module `app_update2`
(imports, constants and function definitions, in source order). -/
def moduleTopLevelNames : List Str :=
  ["st".toList, "pd".toList, "requests".toList, "json".toList,
   "hashlib".toList, "uuid".toList, "datetime".toList, "timedelta".toList,
   "Path".toList, "Optional".toList, "Dict".toList, "Any".toList,
   "Tuple".toList, "components".toList,
   "REGIME_SNAPSHOT_TEMPLATE".toList, "WEB_TOP10_TEMPLATE".toList,
   "REGIME_HISTORY_URL".toList, "KEY_VALIDITY_DAYS".toList,
   "SHARE_CONFIG".toList,
   "load_latest_dir".toList, "load_regime_snapshot".toList,
   "load_web_top10".toList, "load_regime_history".toList,
   "load_regime_latest".toList, "validate_access_key".toList,
   "mask_key".toList, "get_device_id".toList, "format_stock_code".toList,
   "get_tradingview_symbol".toList, "format_percent".toList,
   "format_percent_from_raw".toList, "format_score".toList,
   "render_brand_header".toList, "render_nav_tabs".toList,
   "render_regime_card".toList, "render_signal_table".toList,
   "render_locked_prompt".toList, "render_access_input".toList,
   "render_disclaimer".toList, "render_watermark".toList,
   "render_compliance_footer".toList, "render_tradingview_chart".toList,
   "render_history_page".toList, "render_subscribe_page".toList,
   "main".toList]

/-- A JSON object / single-row dict, as returned by `load_regime_snapshot`
and `load_regime_latest`. -/
abbrev Dict := List (Str × Cell)

/-- The `load_latest_dir` function (lines 55-69): it reads the undefined
global `LATEST_URL`, so every call raises `NameError` inside the `try`,
falls to the bare `except`, and returns `None`.  `fetch` gives the
outcome `requests.get` would produce for a URL. -/
def loadLatestDir (fetch : Str → HttpResult Str) : Option Str :=
  match assocGet moduleUrlConstants "LATEST_URL".toList with
  | none => none
  | some url =>
    match fetch url with
    | .error => none
    | .ok status body? =>
      if status = 200 then
        match body? with
        | some text => some (pyStrip ((splitOnChar '\n' (pyStrip text)).headD []))
        | none => none
      else none

/-- The `load_regime_snapshot` function (lines 72-90), taking the fetch
outcome at its fixed URL (`REGIME_SNAPSHOT_TEMPLATE` contains no
placeholder, so `.format` leaves it unchanged). -/
def loadRegimeSnapshot (r : HttpResult Dict) : Option Dict :=
  match r with
  | .error => none
  | .ok status parsed =>
    if status = 200 then
      match parsed with
      | some j => some j
      | none => none
    else none

/-- The `load_web_top10` function (lines 93-111): returns the parsed CSV
with stripped header names on success and `pd.DataFrame()` on any
failure. -/
def loadWebTop10 (r : HttpResult DataFrame) : DataFrame :=
  match r with
  | .error => emptyDF
  | .ok status parsed =>
    if status = 200 then
      match parsed with
      | some df => stripColumns df
      | none => emptyDF
    else emptyDF

/-- The `load_regime_history` function (lines 114-130): identical fail-soft
shape to `load_web_top10`; note that it performs no date arithmetic of
any kind on the rows. -/
def loadRegimeHistory (r : HttpResult DataFrame) : DataFrame :=
  match r with
  | .error => emptyDF
  | .ok status parsed =>
    if status = 200 then
      match parsed with
      | some df => stripColumns df
      | none => emptyDF
    else emptyDF

/-- The `load_regime_latest` function (lines 133-157): reads the undefined
global `REGIME_LATEST_URL`, so every call returns `None`; the dead
success path builds a dict from the first CSV row. -/
def loadRegimeLatest (fetch : Str → HttpResult DataFrame) : Option Dict :=
  match assocGet moduleUrlConstants "REGIME_LATEST_URL".toList with
  | none => none
  | some url =>
    match fetch url with
    | .error => none
    | .ok status parsed =>
      if status = 200 then
        match parsed with
        | some df =>
          if !df.rows.isEmpty then
            let row := df.rows.headD []
            some [("date".toList, .str (pyStrOfCell (rowGet df.columns row "date".toList (.str [])))),
                  ("shibor_2w".toList, rowGet df.columns row "shibor_2w".toList .nan),
                  ("涨跌".toList, rowGet df.columns row "涨跌".toList .nan),
                  ("rsi_5".toList, rowGet df.columns row "rsi_5".toList .nan),
                  ("risk_on".toList, rowGet df.columns row "risk_on".toList (.int 0)),
                  ("update_time".toList, .str (pyStrOfCell (rowGet df.columns row "update_time".toList (.str []))))]
          else none
        | none => none
      else none

-- ------------------------------------------------------------------
-- Access-key validation and masking (lines 46, 162-218)
-- ------------------------------------------------------------------

/-- The constant `KEY_VALIDITY_DAYS = 30` (line 46). -/
def KEY_VALIDITY_DAYS : Int := 30

/-- The built-in fallback allow-list (lines 175-179). -/
def fallbackKeys : List Str :=
  ["EF-26Q1-A9F4KZ2M".toList, "EF-26Q1-B3H8LP5N".toList, "EF-26Q1-C7J2MR9R".toList]

/-- Allow-list resolution (lines 167-179): the secrets list when present
and nonempty (an exception or a missing attribute leaves it empty),
else the fallback list. -/
def validKeysOf (secretsKeys : List Str) : List Str :=
  if secretsKeys.isEmpty then fallbackKeys else secretsKeys

/-- The `mask_key` function (lines 214-218). -/
def maskKey (key : Str) : Str :=
  if 12 ≤ key.length then
    key.take 8 ++ ['*', '*', '*', '*'] ++ key.drop (key.length - 4)
  else key.take 6 ++ ['*', '*', '*', '*']

/-- The dict shapes `validate_access_key` returns (lines 182, 204,
206-211). -/
inductive ValidateResult where
  | invalid
  | expired (firstSeen : Str)
  | valid (keyMask : Str) (firstSeen : Str) (daysRemaining : Int)
deriving DecidableEq, Repr

/-- The `first_seen` field of a validation result, when present. -/
def firstSeenOf : ValidateResult → Option Str
  | .invalid => none
  | .expired fs => some fs
  | .valid _ fs _ => some fs

/-- Lines 197-201: whole days elapsed since the stored `first_seen`
(`(now - first_date).days`), or `0` when `strptime` raises. -/
def daysUsedOf (today : Date) (fs : Str) : Int :=
  match parseDate fs with
  | some fd => today.rataDie - fd.rataDie
  | none => 0

/-- The `validate_access_key` function (lines 162-211).  `today` is the
date of `datetime.now()`; `keyStates` is `st.session_state.key_states`
(key string to its stored `first_seen`); the updated store is returned
next to the result. -/
def validateAccessKey (key : Str) (secretsKeys : List Str) (today : Date)
    (keyStates : List (Str × Str)) : ValidateResult × List (Str × Str) :=
  let k := pyUpper (pyStrip key)
  if k ∈ validKeysOf secretsKeys then
    let fs0 := (assocGet keyStates k).getD []
    let fsSt : Str × List (Str × Str) :=
      if fs0.isEmpty then (formatDate today, assocSet keyStates k (formatDate today))
      else (fs0, keyStates)
    let daysUsed := daysUsedOf today fsSt.1
    if KEY_VALIDITY_DAYS ≤ daysUsed then (.expired fsSt.1, fsSt.2)
    else (.valid (maskKey k) fsSt.1 (KEY_VALIDITY_DAYS - daysUsed), fsSt.2)
  else (.invalid, keyStates)

-- ------------------------------------------------------------------
-- Formatting utilities (lines 230-273)
-- ------------------------------------------------------------------

/-- The `format_stock_code` function (lines 230-232). -/
def formatStockCode (code : Str) : Str := pyZfill 6 (pyStrip code)

/-- Lines 257-262 of `format_percent_from_raw`: the numeric value parsed
out of the raw cell, `none` when `pd.isna` holds or `float()` raises. -/
def percentVal (c : Cell) : Option ℚ :=
  match c with
  | .nan => none
  | _ =>
    let vs := pyStrip (pyStrOfCell c)
    let vs2 := if '%' ∈ vs then vs.filter (fun ch => ch ≠ '%') else vs
    parseFloat? vs2

/-- The `format_percent_from_raw` function (lines 253-266). -/
def formatPercentFromRaw (c : Cell) : Str :=
  match percentVal c with
  | none => "—".toList
  | some v => (if 0 < v then ['+'] else []) ++ formatFixed2 v ++ ['%']

/-- The `format_score` function (lines 269-273): `f"{value:.2f}"` raises
`TypeError` on a string cell, modelled by the `Except` error. -/
def formatScore : Cell → Except Unit Str
  | .nan => .ok "—".toList
  | .int n => .ok (formatFixed2 (n : ℚ))
  | .num q => .ok (formatFixed2 q)
  | .str _ => .error ()

/-- Python `int(cell)` in the row renderer: truncation toward zero for
numbers, digit parsing for strings, `TypeError` for NaN. -/
def pyInt : Cell → Except Unit Int
  | .int n => .ok n
  | .num q => .ok (Int.tdiv q.num (q.den : Int))
  | .str s =>
    match s with
    | '+' :: rest => if rest ≠ [] ∧ (∀ c ∈ rest, c.isDigit) then .ok (parseDigits rest) else .error ()
    | '-' :: rest => if rest ≠ [] ∧ (∀ c ∈ rest, c.isDigit) then .ok (-(parseDigits rest : Int)) else .error ()
    | _ => if s ≠ [] ∧ (∀ c ∈ s, c.isDigit) then .ok (parseDigits s) else .error ()
  | .nan => .error ()

-- ------------------------------------------------------------------
-- Signal table and history page rendering (lines 867-949, 1053-1089)
-- ------------------------------------------------------------------

/-- One rendered row of the signal table (lines 902-930). -/
structure RenderedSignalRow where
  rank : Int
  symbol : Str
  alpha : Str
  ret1d : Str
  ret1dPos : Bool
  ret20d : Str
  ret20dPos : Bool
  size : Str
  liquidity : Str
deriving DecidableEq, Repr

/-- Lines 910 and 915: the pos/neg CSS class pick.  `'+' in formatted`
short-circuits; otherwise `float(str(raw).replace(...))` runs and may
raise (`Except.error`).  A NaN raw value yields `float("nan") > 0`,
which is `False`. -/
def retClass (formatted : Str) (raw : Cell) : Except Unit Bool :=
  if '+' ∈ formatted then .ok true
  else
    match raw with
    | .nan => .ok false
    | _ =>
      match parseFloat? ((pyStrOfCell raw).filter (fun ch => ch ≠ '%' ∧ ch ≠ '+')) with
      | some f => .ok (0 < f)
      | none => .error ()

/-- The body of the row loop of `render_signal_table` (lines 902-918). -/
def renderSignalRow (cols : List Str) (idx : Nat) (row : List Cell) :
    Except Unit RenderedSignalRow := do
  let rank ← pyInt (rowGet cols row "Rank".toList (.int ((idx : Int) + 1)))
  let symbol := formatStockCode (pyStrOfCell (rowGet cols row "Symbol".toList (.str [])))
  let alpha ← formatScore (rowGet cols row "Alpha Score".toList (rowGet cols row "Score".toList (.int 0)))
  let ret1dRaw := rowGet cols row "1D Return".toList (rowGet cols row "Return_1D".toList (.int 0))
  let ret1d := formatPercentFromRaw ret1dRaw
  let ret1dPos ← retClass ret1d ret1dRaw
  let ret20dRaw := rowGet cols row "20D Momentum".toList (rowGet cols row "Return_20D".toList (.int 0))
  let ret20d := formatPercentFromRaw ret20dRaw
  let ret20dPos ← retClass ret20d ret20dRaw
  let size := pyStrOfCell (rowGet cols row "Size".toList (.str "—".toList))
  let liquidity := pyStrOfCell (rowGet cols row "Liquidity".toList (.str "—".toList))
  pure ⟨rank, symbol, alpha, ret1d, ret1dPos, ret20d, ret20dPos, size, liquidity⟩

/-- Output of `render_signal_table`: the no-data placeholder, or the table
rows plus whether the locked overlay follows. -/
inductive SignalRender where
  | noData
  | table (rows : List RenderedSignalRow) (lockedOverlay : Bool)
deriving DecidableEq, Repr

/-- The `render_signal_table` function (lines 867-949): empty frame or
missing `Rank` column shows the placeholder; otherwise locked mode keeps
only the first `limit` rows; a raising row aborts the page. -/
def renderSignalTable (df : DataFrame) (unlocked : Bool) (limit : Nat) :
    Except Unit SignalRender :=
  if dfEmpty df || !(df.columns.contains "Rank".toList) then .ok .noData
  else do
    let picked := if !unlocked then df.rows.take limit else df.rows
    let rendered ← picked.enum.mapM (fun p => renderSignalRow df.columns p.1 p.2)
    pure (.table rendered (!unlocked))

/-- The record-selection logic of `render_history_page` (lines 1065-1077):
`none` is the no-data placeholder (empty frame or missing `date`
column); otherwise the rows the timeline and the table iterate, namely
`df_history.tail(30)` reversed.  The per-row HTML carries each row's
cells verbatim and is elided. -/
def renderHistoryRows (df : DataFrame) : Option (List (List Cell)) :=
  if dfEmpty df || !(df.columns.contains "date".toList) then none
  else some ((df.rows.drop (df.rows.length - 30)).reverse)

-- ------------------------------------------------------------------
-- Lemmas on digits, zfill, split and the date round trip
-- ------------------------------------------------------------------

theorem digitVal_digitChar {d : Nat} (h : d < 10) : digitVal (digitChar d) = d := by
  interval_cases d <;> decide

theorem digitChar_isDigit {d : Nat} (h : d < 10) : (digitChar d).isDigit = true := by
  interval_cases d <;> decide

theorem natDigitsAux_congr :
    ∀ f₁ f₂ n : Nat, n ≤ f₁ → n ≤ f₂ → natDigitsAux f₁ n = natDigitsAux f₂ n := by
  intro f₁
  induction f₁ with
  | zero =>
    intro f₂ n h₁ h₂
    have : n = 0 := by omega
    subst this
    cases f₂ <;> rfl
  | succ f₁ ih =>
    intro f₂ n h₁ h₂
    cases f₂ with
    | zero =>
      have : n = 0 := by omega
      subst this
      rfl
    | succ f₂ =>
      show (if n < 10 then [digitChar n]
            else natDigitsAux f₁ (n / 10) ++ [digitChar (n % 10)]) =
           (if n < 10 then [digitChar n]
            else natDigitsAux f₂ (n / 10) ++ [digitChar (n % 10)])
      by_cases hn : n < 10
      · rw [if_pos hn, if_pos hn]
      · rw [if_neg hn, if_neg hn, ih f₂ (n / 10) (by omega) (by omega)]

theorem natDigits_eq (n : Nat) :
    natDigits n = if n < 10 then [digitChar n]
      else natDigits (n / 10) ++ [digitChar (n % 10)] := by
  unfold natDigits
  cases n with
  | zero => rfl
  | succ m =>
    show (if m + 1 < 10 then [digitChar (m + 1)]
          else natDigitsAux m ((m + 1) / 10) ++ [digitChar ((m + 1) % 10)]) = _
    by_cases hn : m + 1 < 10
    · rw [if_pos hn, if_pos hn]
    · rw [if_neg hn, if_neg hn,
        natDigitsAux_congr m ((m + 1) / 10) ((m + 1) / 10) (by omega) le_rfl]

theorem natDigits_all_digit (n : Nat) : ∀ c ∈ natDigits n, c.isDigit = true := by
  induction n using Nat.strong_induction_on with
  | _ n ih =>
    intro c hc
    rw [natDigits_eq] at hc
    split at hc
    · next h =>
      simp only [List.mem_singleton] at hc
      exact hc ▸ digitChar_isDigit h
    · next h =>
      rw [List.mem_append] at hc
      rcases hc with hc | hc
      · exact ih (n / 10) (Nat.div_lt_self (by omega) (by omega)) c hc
      · simp only [List.mem_singleton] at hc
        exact hc ▸ digitChar_isDigit (Nat.mod_lt _ (by omega))

theorem natDigits_ne_nil (n : Nat) : natDigits n ≠ [] := by
  rw [natDigits_eq]
  split <;> simp

theorem natDigits_length_le (k : Nat) (hk : 1 ≤ k) :
    ∀ n, n < 10 ^ k → (natDigits n).length ≤ k := by
  induction k with
  | zero => omega
  | succ k ih =>
    intro n hn
    rw [natDigits_eq]
    split
    · simp
    · next h =>
      have hk1 : 1 ≤ k := by
        by_contra hc
        have : k = 0 := by omega
        subst this
        simp [pow_succ] at hn
        omega
      have hdiv : n / 10 < 10 ^ k := by
        rw [Nat.div_lt_iff_lt_mul (by omega)]
        calc n < 10 ^ (k + 1) := hn
        _ = 10 ^ k * 10 := by rw [pow_succ]
      have := ih hk1 (n / 10) hdiv
      simp only [List.length_append, List.length_singleton]
      omega

theorem parseDigits_append_digit (l : Str) (c : Char) :
    parseDigits (l ++ [c]) = parseDigits l * 10 + digitVal c := by
  simp [parseDigits, List.foldl_append]

theorem parseDigits_natDigits (n : Nat) : parseDigits (natDigits n) = n := by
  induction n using Nat.strong_induction_on with
  | _ n ih =>
    rw [natDigits_eq]
    split
    · next h =>
      simp [parseDigits, digitVal_digitChar h]
    · next h =>
      rw [parseDigits_append_digit,
        ih (n / 10) (Nat.div_lt_self (by omega) (by omega)),
        digitVal_digitChar (Nat.mod_lt _ (by omega))]
      omega

theorem parseDigits_zfill (w : Nat) (l : Str) :
    parseDigits (zfill w l) = parseDigits l := by
  unfold zfill parseDigits
  generalize w - l.length = p
  induction p with
  | zero => simp
  | succ p ihp =>
    rw [List.replicate_succ, List.cons_append, List.foldl_cons]
    have : (0 : Nat) * 10 + digitVal '0' = 0 := by decide
    rw [this, ihp]

theorem zfill_length (w : Nat) (l : Str) : (zfill w l).length = max w l.length := by
  simp [zfill]
  omega

theorem zfill_ne_nil (w : Nat) (l : Str) (h : 1 ≤ w) : zfill w l ≠ [] := by
  intro hc
  have := congrArg List.length hc
  rw [zfill_length] at this
  simp at this
  omega

theorem zfill_all_digit (w : Nat) (l : Str) (h : ∀ c ∈ l, c.isDigit = true) :
    ∀ c ∈ zfill w l, c.isDigit = true := by
  intro c hc
  rw [zfill, List.mem_append] at hc
  rcases hc with hc | hc
  · rw [List.eq_of_mem_replicate hc]; decide
  · exact h c hc

theorem splitOnChar_ne_nil (sep : Char) (l : Str) : splitOnChar sep l ≠ [] := by
  cases l with
  | nil => simp [splitOnChar]
  | cons c rest =>
    unfold splitOnChar
    split <;> simp_all
    split <;> simp

theorem splitOnChar_of_not_mem {sep : Char} {l : Str} (h : sep ∉ l) :
    splitOnChar sep l = [l] := by
  induction l with
  | nil => rfl
  | cons c rest ih =>
    simp only [List.mem_cons, not_or] at h
    unfold splitOnChar
    rw [ih h.2]
    simp [Ne.symm h.1]

theorem splitOnChar_cons (sep c : Char) (rest : Str) :
    splitOnChar sep (c :: rest) =
      match splitOnChar sep rest with
      | [] => [[c]]
      | h :: t => if c = sep then [] :: h :: t else (c :: h) :: t := rfl

theorem splitOnChar_append_cons {sep : Char} {a : Str} (b : Str) (h : sep ∉ a) :
    splitOnChar sep (a ++ sep :: b) = a :: splitOnChar sep b := by
  induction a with
  | nil =>
    simp only [List.nil_append]
    rw [splitOnChar_cons]
    rcases hne : splitOnChar sep b with _ | ⟨hd, tl⟩
    · exact absurd hne (splitOnChar_ne_nil sep b)
    · simp
  | cons c a' ih =>
    simp only [List.mem_cons, not_or] at h
    simp only [List.cons_append]
    rw [splitOnChar_cons, ih h.2]
    simp [Ne.symm h.1]

theorem isDigit_ne_dash {c : Char} (h : c.isDigit = true) : c ≠ '-' := by
  intro hc
  subst hc
  simp at h

theorem dash_not_mem_of_all_digit {l : Str} (h : ∀ c ∈ l, c.isDigit = true) :
    '-' ∉ l := by
  intro hc
  exact isDigit_ne_dash (h '-' hc) rfl

theorem formatDate_ne_nil (d : Date) : formatDate d ≠ [] := by
  intro hc
  have h4 : zfill 4 (natDigits d.year) = [] := (List.append_eq_nil.mp hc).1
  exact zfill_ne_nil 4 _ (by omega) h4

theorem parseDate_formatDate (d : Date) (h : d.Valid) :
    parseDate (formatDate d) = some d := by
  obtain ⟨h1, h2, h3, h4, h5, h6⟩ := h
  have hy : ∀ c ∈ zfill 4 (natDigits d.year), c.isDigit = true :=
    zfill_all_digit _ _ (natDigits_all_digit _)
  have hm : ∀ c ∈ zfill 2 (natDigits d.month), c.isDigit = true :=
    zfill_all_digit _ _ (natDigits_all_digit _)
  have hd : ∀ c ∈ zfill 2 (natDigits d.day), c.isDigit = true :=
    zfill_all_digit _ _ (natDigits_all_digit _)
  have hylen : (natDigits d.year).length ≤ 4 :=
    natDigits_length_le 4 (by omega) _ (by omega)
  have hmlen : (natDigits d.month).length ≤ 2 :=
    natDigits_length_le 2 (by omega) _ (by omega)
  have hdlen : (natDigits d.day).length ≤ 2 := by
    refine natDigits_length_le 2 (by omega) _ ?_
    have : daysInMonth d.year d.month ≤ 31 := by
      unfold daysInMonth
      split
      · split <;> omega
      · split <;> omega
    omega
  unfold parseDate formatDate
  rw [splitOnChar_append_cons _ (dash_not_mem_of_all_digit hy),
    splitOnChar_append_cons _ (dash_not_mem_of_all_digit hm),
    splitOnChar_of_not_mem (dash_not_mem_of_all_digit hd)]
  show parseDateParts _ _ _ = _
  unfold parseDateParts
  rw [if_pos]
  · rw [parseDigits_zfill, parseDigits_zfill, parseDigits_zfill,
      parseDigits_natDigits, parseDigits_natDigits, parseDigits_natDigits]
    rw [if_pos ⟨h1, h2, h3, h4, h5, h6⟩]
  · refine ⟨zfill_ne_nil _ _ (by omega), ?_, hy,
      zfill_ne_nil _ _ (by omega), ?_, hm,
      zfill_ne_nil _ _ (by omega), ?_, hd⟩
    · rw [zfill_length]; omega
    · rw [zfill_length]; omega
    · rw [zfill_length]; omega

-- ------------------------------------------------------------------
-- Helper lemmas about the embedding
-- ------------------------------------------------------------------

theorem assocGet_assocSet_self (st : List (Str × Str)) (k v : Str) :
    assocGet (assocSet st k v) k = some v := by
  induction st with
  | nil => simp [assocSet, assocGet]
  | cons p t ih =>
    obtain ⟨k', v'⟩ := p
    unfold assocSet
    by_cases hk : k' = k
    · simp [hk, assocGet]
    · simp only [if_neg hk]
      unfold assocGet
      rw [if_neg hk, ih]

theorem count_eq_zero_of_all_digit {l : Str} (h : ∀ c ∈ l, c.isDigit = true)
    {ch : Char} (hch : ch.isDigit = false) : l.count ch = 0 := by
  refine List.count_eq_zero.mpr fun hc => ?_
  rw [h ch hc] at hch
  cases hch

theorem formatFixed2_shape (v : ℚ) :
    formatFixed2 v = (if v < 0 then ['-'] else []) ++
      (natDigits (halfUpNat (v.num.natAbs * 100) v.den / 100) ++
        ('.' :: zfill 2 (natDigits (halfUpNat (v.num.natAbs * 100) v.den % 100)))) := rfl

theorem count_digitsBody_eq_zero (a b : Nat) {ch : Char}
    (h1 : ch.isDigit = false) (h2 : ch ≠ '.') :
    (natDigits a ++ ('.' :: zfill 2 (natDigits b))).count ch = 0 := by
  rw [List.count_append, List.count_cons,
    count_eq_zero_of_all_digit (natDigits_all_digit a) h1,
    count_eq_zero_of_all_digit (zfill_all_digit _ _ (natDigits_all_digit b)) h1]
  simp [Ne.symm h2]

-- ------------------------------------------------------------------
-- Claim theorems
-- ------------------------------------------------------------------

/-- C2: a submitted key whose trimmed, uppercased form is not on the
configured allow-list yields the bare invalid result, the same value for
every such key, and the session store is untouched. -/
theorem validate_unknown_key_invalid (key : Str) (secrets : List Str)
    (today : Date) (keyStates : List (Str × Str))
    (hmem : pyUpper (pyStrip key) ∉ validKeysOf secrets) :
    validateAccessKey key secrets today keyStates = (.invalid, keyStates) := by
  unfold validateAccessKey
  rw [if_neg hmem]

theorem validate_unknown_key_invalid_witness :
    validateAccessKey " totally-unknown ".toList [] ⟨2026, 2, 9⟩ [] =
      (.invalid, []) :=
  validate_unknown_key_invalid _ _ _ _ (by decide)

/-- C4 counterexample: a history CSV row with calculation date 2026-02-09
loads with no `effective_date` cell at all, while the specified date
mapper would have produced 2026-02-10; `load_regime_history` does not
compute the claimed column. -/
def histCsvC4 : DataFrame :=
  ⟨["date".toList, "risk_on".toList],
   [[Cell.str "2026-02-09".toList, Cell.int 1]]⟩

theorem history_loader_effective_date_cex :
    (loadRegimeHistory (.ok 200 (some histCsvC4))).rows =
      [[Cell.str "2026-02-09".toList, Cell.int 1]] ∧
    specEffectiveDate ⟨2026, 2, 9⟩ = ⟨2026, 2, 10⟩ ∧
    getCellByName (loadRegimeHistory (.ok 200 (some histCsvC4)))
        [Cell.str "2026-02-09".toList, Cell.int 1] "effective_date".toList ≠
      some (Cell.str (formatDate (specEffectiveDate ⟨2026, 2, 9⟩))) ∧
    "effective_date".toList ∉ (loadRegimeHistory (.ok 200 (some histCsvC4))).columns := by
  refine ⟨by decide, by decide, by decide, by decide⟩

/-- C4 amended: `load_regime_history` returns every successfully parsed
row unchanged and only trims whitespace from header names; it computes
no `effective_date` for any row.  The specification's one-calendar-day
mapper itself (modelled separately, since it appears nowhere in the
source) does map 2026-02-09 to 2026-02-10 and 2025-12-31 to 2026-01-01. -/
theorem history_loader_no_effective_date :
    (∀ df : DataFrame,
      loadRegimeHistory (.ok 200 (some df)) = stripColumns df ∧
      (loadRegimeHistory (.ok 200 (some df))).rows = df.rows ∧
      (loadRegimeHistory (.ok 200 (some df))).columns = df.columns.map pyStrip) ∧
    specEffectiveDate ⟨2026, 2, 9⟩ = ⟨2026, 2, 10⟩ ∧
    specEffectiveDate ⟨2025, 12, 31⟩ = ⟨2026, 1, 1⟩ := by
  refine ⟨fun df => ⟨rfl, rfl, rfl⟩, by decide, by decide⟩

/-- C6: masking shows the first eight characters, the fixed four-star
mask and the last four characters for keys of length at least twelve
(in particular on the documented example key), and the first six
characters plus the mask for shorter keys. -/
theorem mask_key_format :
    maskKey "EF-26Q1-A9F4KZ2M".toList = "EF-26Q1-****KZ2M".toList ∧
    ∀ key : Str,
      (12 ≤ key.length →
        maskKey key = key.take 8 ++ "****".toList ++ (key.reverse.take 4).reverse) ∧
      (key.length < 12 → maskKey key = key.take 6 ++ "****".toList) := by
  refine ⟨by decide, fun key => ⟨fun h => ?_, fun h => ?_⟩⟩
  · unfold maskKey
    rw [if_pos h, ← List.rtake_eq_reverse_take_reverse]
    rfl
  · unfold maskKey
    rw [if_neg (by omega)]
    rfl

theorem mask_key_format_witness :
    maskKey "EF26Q1".toList = "EF26Q1".toList.take 6 ++ "****".toList :=
  (mask_key_format.2 "EF26Q1".toList).2 (by decide)

/-- C8: whenever the history frame is nonempty and carries a `date`
column, the rendered history shows exactly the last thirty records in
most-recent-first order (equivalently, the first thirty records of the
reversed sequence). -/
theorem history_display_last30 (df : DataFrame)
    (hrows : df.rows ≠ []) (hdate : "date".toList ∈ df.columns) :
    renderHistoryRows df = some (df.rows.reverse.take 30) := by
  have hcols : df.columns ≠ [] := by
    intro hc
    rw [hc] at hdate
    cases hdate
  have hguard : (dfEmpty df || !(df.columns.contains "date".toList)) = false := by
    simp only [dfEmpty, Bool.or_eq_false_iff, Bool.not_eq_true']
    refine ⟨?_, ?_⟩
    · simp [List.isEmpty_iff, hrows, hcols]
    · simp only [List.contains]
      rw [List.elem_iff.mpr hdate]
      rfl
  unfold renderHistoryRows
  rw [hguard]
  simp only [Bool.false_eq_true, if_false]
  rw [show df.rows.drop (df.rows.length - 30) = df.rows.rtake 30 from rfl,
    List.rtake_eq_reverse_take_reverse, List.reverse_reverse]

def histCsvC8 : DataFrame :=
  ⟨["date".toList, "risk_on".toList],
   [[Cell.str "2026-02-01".toList, Cell.int 1],
    [Cell.str "2026-02-02".toList, Cell.int 0]]⟩

theorem history_display_last30_witness :
    renderHistoryRows histCsvC8 = some (histCsvC8.rows.reverse.take 30) :=
  history_display_last30 histCsvC8 (by decide) (by decide)

/-- C10: neither `LATEST_URL` nor `REGIME_LATEST_URL` is bound anywhere
at module level, so `load_latest_dir` and `load_regime_latest` hit a
`NameError` that their bare `except` swallows and return `None` on every
call, whatever the network would have answered. -/
theorem undefined_url_loaders_none :
    "LATEST_URL".toList ∉ moduleTopLevelNames ∧
    "REGIME_LATEST_URL".toList ∉ moduleTopLevelNames ∧
    assocGet moduleUrlConstants "LATEST_URL".toList = none ∧
    assocGet moduleUrlConstants "REGIME_LATEST_URL".toList = none ∧
    (∀ fetch : Str → HttpResult Str, loadLatestDir fetch = none) ∧
    (∀ fetch : Str → HttpResult DataFrame, loadRegimeLatest fetch = none) := by
  refine ⟨by decide, by decide, by decide, by decide, fun fetch => ?_, fun fetch => ?_⟩
  · unfold loadLatestDir
    rw [show assocGet moduleUrlConstants "LATEST_URL".toList = none from by decide]
  · unfold loadRegimeLatest
    rw [show assocGet moduleUrlConstants "REGIME_LATEST_URL".toList = none from by decide]

theorem isEmpty_false_of_ne_nil {l : Str} (h : l ≠ []) : l.isEmpty = false := by
  cases l with
  | nil => exact absurd rfl h
  | cons a b => rfl

theorem validateAccessKey_recorded (key : Str) (secrets : List Str)
    (today : Date) (keyStates : List (Str × Str)) (fs : Str)
    (hmem : pyUpper (pyStrip key) ∈ validKeysOf secrets)
    (hrec : assocGet keyStates (pyUpper (pyStrip key)) = some fs)
    (hne : fs ≠ []) :
    validateAccessKey key secrets today keyStates =
      (if KEY_VALIDITY_DAYS ≤ daysUsedOf today fs then (.expired fs, keyStates)
       else (.valid (maskKey (pyUpper (pyStrip key))) fs
          (KEY_VALIDITY_DAYS - daysUsedOf today fs), keyStates)) := by
  have hfalse : fs.isEmpty = false := isEmpty_false_of_ne_nil hne
  unfold validateAccessKey
  simp only [if_pos hmem, hrec, Option.getD_some, hfalse, Bool.false_eq_true, if_false]

/-- C1: for an allow-listed key whose `first_seen` is already recorded,
validation returns the expired result (carrying `first_seen`) exactly
when the elapsed whole days reach 30, and otherwise the valid result
with the key mask, the stored `first_seen` and `days_remaining = 30 -
elapsed`; the store is unchanged either way. -/
theorem validate_expiry_window (key : Str) (secrets : List Str)
    (today fsd : Date) (keyStates : List (Str × Str)) (fs : Str)
    (hmem : pyUpper (pyStrip key) ∈ validKeysOf secrets)
    (hrec : assocGet keyStates (pyUpper (pyStrip key)) = some fs)
    (hne : fs ≠ [])
    (hparse : parseDate fs = some fsd) :
    (30 ≤ today.rataDie - fsd.rataDie →
      validateAccessKey key secrets today keyStates = (.expired fs, keyStates)) ∧
    (today.rataDie - fsd.rataDie < 30 →
      validateAccessKey key secrets today keyStates =
        (.valid (maskKey (pyUpper (pyStrip key))) fs
          (30 - (today.rataDie - fsd.rataDie)), keyStates)) := by
  have heq := validateAccessKey_recorded key secrets today keyStates fs hmem hrec hne
  have hdays : daysUsedOf today fs = today.rataDie - fsd.rataDie := by
    unfold daysUsedOf
    rw [hparse]
  constructor <;> intro hel <;> rw [heq]
  · rw [if_pos]
    rw [hdays, KEY_VALIDITY_DAYS]
    exact hel
  · rw [if_neg, hdays, KEY_VALIDITY_DAYS]
    rw [hdays, KEY_VALIDITY_DAYS]
    omega

theorem validate_expiry_window_witness :
    validateAccessKey " ef-26q1-a9f4kz2m".toList [] ⟨2026, 1, 31⟩
        [("EF-26Q1-A9F4KZ2M".toList, "2026-01-01".toList)] =
      (.expired "2026-01-01".toList,
        [("EF-26Q1-A9F4KZ2M".toList, "2026-01-01".toList)]) ∧
    validateAccessKey "EF-26Q1-A9F4KZ2M".toList [] ⟨2026, 1, 30⟩
        [("EF-26Q1-A9F4KZ2M".toList, "2026-01-01".toList)] =
      (.valid "EF-26Q1-****KZ2M".toList "2026-01-01".toList 1,
        [("EF-26Q1-A9F4KZ2M".toList, "2026-01-01".toList)]) := by
  constructor
  · exact (validate_expiry_window _ _ _ ⟨2026, 1, 1⟩ _ _ (by decide) (by decide)
      (by decide) (by decide)).1 (by decide)
  · have h := (validate_expiry_window "EF-26Q1-A9F4KZ2M".toList [] ⟨2026, 1, 30⟩
      ⟨2026, 1, 1⟩ [("EF-26Q1-A9F4KZ2M".toList, "2026-01-01".toList)]
      "2026-01-01".toList (by decide) (by decide) (by decide) (by decide)).2 (by decide)
    rw [h]
    decide

/-- C3: the first validation of an allow-listed key succeeds, stores
today's date as its `first_seen`, and reports 30 remaining days; any
later call in the same process that finds this stored `first_seen`
leaves the store untouched and reports the very same `first_seen`. -/
theorem validate_first_seen_immutable (key : Str) (secrets : List Str)
    (today : Date) (keyStates : List (Str × Str))
    (hmem : pyUpper (pyStrip key) ∈ validKeysOf secrets)
    (hnew : assocGet keyStates (pyUpper (pyStrip key)) = none)
    (hvalid : today.Valid) :
    validateAccessKey key secrets today keyStates =
      (.valid (maskKey (pyUpper (pyStrip key))) (formatDate today) 30,
        assocSet keyStates (pyUpper (pyStrip key)) (formatDate today)) ∧
    assocGet (assocSet keyStates (pyUpper (pyStrip key)) (formatDate today))
        (pyUpper (pyStrip key)) = some (formatDate today) ∧
    (∀ (today₂ : Date) (st₂ : List (Str × Str)),
      assocGet st₂ (pyUpper (pyStrip key)) = some (formatDate today) →
        (validateAccessKey key secrets today₂ st₂).2 = st₂ ∧
        firstSeenOf (validateAccessKey key secrets today₂ st₂).1 =
          some (formatDate today)) := by
  refine ⟨?_, assocGet_assocSet_self _ _ _, ?_⟩
  · have hdays : daysUsedOf today (formatDate today) = 0 := by
      unfold daysUsedOf
      rw [parseDate_formatDate today hvalid]
      simp
    unfold validateAccessKey
    simp only [if_pos hmem, hnew, Option.getD_none, List.isEmpty_nil, if_true, hdays,
      KEY_VALIDITY_DAYS]
    rw [if_neg (by omega)]
    norm_num
  · intro today₂ st₂ h₂
    have heq := validateAccessKey_recorded key secrets today₂ st₂ (formatDate today)
      hmem h₂ (formatDate_ne_nil today)
    rw [heq]
    by_cases hif : KEY_VALIDITY_DAYS ≤ daysUsedOf today₂ (formatDate today)
    · rw [if_pos hif]
      exact ⟨rfl, rfl⟩
    · rw [if_neg hif]
      exact ⟨rfl, rfl⟩

theorem validate_first_seen_immutable_witness :
    validateAccessKey "EF-26Q1-B3H8LP5N".toList [] ⟨2026, 2, 9⟩ [] =
      (.valid "EF-26Q1-****LP5N".toList "2026-02-09".toList 30,
        [("EF-26Q1-B3H8LP5N".toList, "2026-02-09".toList)]) := by
  have h := (validate_first_seen_immutable "EF-26Q1-B3H8LP5N".toList [] ⟨2026, 2, 9⟩ []
    (by decide) (by decide) (by decide)).1
  rw [h]
  decide

/-- C5: every data loader collapses every failure mode — raised network
error or timeout, unparsable body, non-200 status — to `None`
(snapshot) or the empty frame (signals, history); the two loaders built
on undefined URL constants return `None` unconditionally; and the
signal table renders an empty frame as the no-data placeholder for any
lock state and preview size, in particular the locked top-2 preview,
with no row indexing at all.  All loaders are total functions of the
fetch outcome: no exception escapes to the caller. -/
theorem loaders_fail_soft :
    loadRegimeSnapshot .error = none ∧
    (∀ s : Nat, loadRegimeSnapshot (.ok s none) = none) ∧
    (∀ (s : Nat) (j : Dict), s ≠ 200 → loadRegimeSnapshot (.ok s (some j)) = none) ∧
    loadWebTop10 .error = emptyDF ∧
    (∀ s : Nat, loadWebTop10 (.ok s none) = emptyDF) ∧
    (∀ (s : Nat) (df : DataFrame), s ≠ 200 → loadWebTop10 (.ok s (some df)) = emptyDF) ∧
    loadRegimeHistory .error = emptyDF ∧
    (∀ s : Nat, loadRegimeHistory (.ok s none) = emptyDF) ∧
    (∀ (s : Nat) (df : DataFrame), s ≠ 200 → loadRegimeHistory (.ok s (some df)) = emptyDF) ∧
    (∀ fetch : Str → HttpResult Str, loadLatestDir fetch = none) ∧
    (∀ fetch : Str → HttpResult DataFrame, loadRegimeLatest fetch = none) ∧
    (∀ (unlocked : Bool) (limit : Nat), renderSignalTable emptyDF unlocked limit = .ok .noData) := by
  refine ⟨rfl, ?_, ?_, rfl, ?_, ?_, rfl, ?_, ?_, ?_, ?_, ?_⟩
  · intro s
    by_cases hs : s = 200 <;> simp [loadRegimeSnapshot, hs]
  · intro s j hs
    simp [loadRegimeSnapshot, hs]
  · intro s
    by_cases hs : s = 200 <;> simp [loadWebTop10, hs]
  · intro s df hs
    simp [loadWebTop10, hs]
  · intro s
    by_cases hs : s = 200 <;> simp [loadRegimeHistory, hs]
  · intro s df hs
    simp [loadRegimeHistory, hs]
  · intro fetch
    unfold loadLatestDir
    rw [show assocGet moduleUrlConstants "LATEST_URL".toList = none from by decide]
  · intro fetch
    unfold loadRegimeLatest
    rw [show assocGet moduleUrlConstants "REGIME_LATEST_URL".toList = none from by decide]
  · intro unlocked limit
    rfl

theorem loaders_fail_soft_witness :
    loadRegimeSnapshot (.ok 404 (some [])) = none ∧
    loadWebTop10 (.ok 500 (some emptyDF)) = emptyDF ∧
    loadRegimeHistory (.ok 404 (some emptyDF)) = emptyDF ∧
    renderSignalTable emptyDF false 2 = .ok .noData := by
  refine ⟨?_, ?_, ?_, ?_⟩
  · exact loaders_fail_soft.2.2.1 404 [] (by decide)
  · exact loaders_fail_soft.2.2.2.2.2.1 500 emptyDF (by decide)
  · exact loaders_fail_soft.2.2.2.2.2.2.2.2.1 404 emptyDF (by decide)
  · exact loaders_fail_soft.2.2.2.2.2.2.2.2.2.2.2 false 2

/-- C7 counterexample: the claim fails already for the one-character key
`"A"`, which is not empty and whose full text occurs verbatim (as a
prefix) inside its mask `"A****"`; the same happens for every key of at
most six characters. -/
def isSubOf (a b : Str) : Prop := ∃ l r, b = l ++ a ++ r

theorem mask_key_short_key_revealed :
    "A".toList ≠ [] ∧
    maskKey "A".toList = "A****".toList ∧
    isSubOf "A".toList (maskKey "A".toList) :=
  ⟨by decide, by decide, [], "****".toList, by decide⟩

/-- C7 amended: masking never reveals the full key for the keys the
program actually handles — any key of at least seven characters that
contains no `'*'`: the full key never occurs contiguously inside its
mask.  (Keys of up to six characters survive as a prefix of the short
mask, and a key containing `'*'` can collide with the mask block, so the
claim's universal form fails there.) -/
theorem mask_key_no_full_reveal (key : Str)
    (h7 : 7 ≤ key.length) (hstar : '*' ∉ key) :
    ¬ isSubOf key (maskKey key) := by
  rintro ⟨l, r, hsplit⟩
  by_cases h12 : 12 ≤ key.length
  · -- long form: take 8 ++ "****" ++ last 4, total length 16
    have hmask : maskKey key = key.take 8 ++ ['*', '*', '*', '*'] ++ key.drop (key.length - 4) := by
      unfold maskKey
      rw [if_pos h12]
    have hml : (maskKey key).length = 16 := by
      rw [hmask]
      simp only [List.length_append, List.length_take, List.length_drop,
        List.length_cons, List.length_nil]
      omega
    by_cases h16 : key.length ≤ 16
    · have hlen : l.length + key.length + r.length = 16 := by
        have hc := congrArg List.length hsplit
        rw [hml] at hc
        simp only [List.length_append] at hc
        omega
      have hstar8 : ((l ++ key) ++ r)[8]? = some '*' := by
        rw [← hsplit, hmask,
          List.getElem?_append,
          if_pos (by
            simp only [List.length_append, List.length_take, List.length_cons,
              List.length_nil]
            omega),
          List.getElem?_append_right (by rw [List.length_take]; omega),
          show 8 - (key.take 8).length = 0 by rw [List.length_take]; omega]
        rfl
      have hkey : key[8 - l.length]? = some '*' := by
        rw [List.getElem?_append,
          if_pos (by simp only [List.length_append]; omega),
          List.getElem?_append_right (by omega)] at hstar8
        exact hstar8
      exact hstar (List.getElem?_mem hkey)
    · have hc := congrArg List.length hsplit
      rw [hml] at hc
      simp only [List.length_append] at hc
      omega
  · -- short form: take 6 ++ "****", total length 10
    have hmask : maskKey key = key.take 6 ++ ['*', '*', '*', '*'] := by
      unfold maskKey
      rw [if_neg h12]
    have hml : (maskKey key).length = 10 := by
      rw [hmask]
      simp only [List.length_append, List.length_take, List.length_cons,
        List.length_nil]
      omega
    have hlen : l.length + key.length + r.length = 10 := by
      have hc := congrArg List.length hsplit
      rw [hml] at hc
      simp only [List.length_append] at hc
      omega
    have hstar6 : ((l ++ key) ++ r)[6]? = some '*' := by
      rw [← hsplit, hmask,
        List.getElem?_append_right (by rw [List.length_take]; omega),
        show 6 - (key.take 6).length = 0 by rw [List.length_take]; omega]
      rfl
    have hkey : key[6 - l.length]? = some '*' := by
      rw [List.getElem?_append,
        if_pos (by simp only [List.length_append]; omega),
        List.getElem?_append_right (by omega)] at hstar6
      exact hstar6
    exact hstar (List.getElem?_mem hkey)

theorem mask_key_no_full_reveal_witness :
    ¬ isSubOf "EF-26Q1-A9F4KZ2M".toList (maskKey "EF-26Q1-A9F4KZ2M".toList) :=
  mask_key_no_full_reveal "EF-26Q1-A9F4KZ2M".toList (by decide) (by decide)

/-- C9: percent formatting round-trips the sign: the raw string
`"-3.25%"` formats back to `"-3.25%"` and the signless number `3.25`
(whose `str()` is `"3.25"`) formats to `"+3.25%"`; in general, whenever
the raw cell parses to a positive value the output carries exactly one
`'+'` and no `'-'`, led by the `'+'`, and whenever it parses to a
negative value the output carries exactly one `'-'` and no `'+'`, led by
the `'-'`. -/
theorem format_percent_sign :
    formatPercentFromRaw (.str "-3.25%".toList) = "-3.25%".toList ∧
    formatPercentFromRaw (.num (mkRat 13 4)) = "+3.25%".toList ∧
    ∀ (c : Cell) (v : ℚ), percentVal c = some v →
      (0 < v → (formatPercentFromRaw c).count '+' = 1 ∧
               (formatPercentFromRaw c).count '-' = 0 ∧
               (formatPercentFromRaw c).head? = some '+') ∧
      (v < 0 → (formatPercentFromRaw c).count '-' = 1 ∧
               (formatPercentFromRaw c).count '+' = 0 ∧
               (formatPercentFromRaw c).head? = some '-') := by
  refine ⟨by decide, by decide, ?_⟩
  intro c v h
  have hout : formatPercentFromRaw c =
      (if 0 < v then ['+'] else []) ++ formatFixed2 v ++ ['%'] := by
    unfold formatPercentFromRaw
    rw [h]
  have hA : ∀ ch : Char, ch.isDigit = false →
      List.count ch (natDigits (halfUpNat (v.num.natAbs * 100) v.den / 100)) = 0 :=
    fun ch hd => count_eq_zero_of_all_digit (natDigits_all_digit _) hd
  have hB : ∀ ch : Char, ch.isDigit = false →
      List.count ch (zfill 2 (natDigits (halfUpNat (v.num.natAbs * 100) v.den % 100))) = 0 :=
    fun ch hd => count_eq_zero_of_all_digit (zfill_all_digit _ _ (natDigits_all_digit _)) hd
  constructor
  · intro hv
    have hneg : ¬ v < 0 := not_lt.mpr hv.le
    rw [hout, formatFixed2_shape, if_pos hv, if_neg hneg]
    refine ⟨?_, ?_, ?_⟩
    · simp [List.count_append, hA '+' (by decide), hB '+' (by decide)]
    · simp [List.count_append, hA '-' (by decide), hB '-' (by decide)]
    · simp
  · intro hv
    have hpos : ¬ 0 < v := not_lt.mpr hv.le
    rw [hout, formatFixed2_shape, if_neg hpos, if_pos hv]
    refine ⟨?_, ?_, ?_⟩
    · simp [List.count_append, hA '-' (by decide), hB '-' (by decide)]
    · simp [List.count_append, hA '+' (by decide), hB '+' (by decide)]
    · simp

theorem format_percent_sign_witness :
    (formatPercentFromRaw (.str "7".toList)).count '+' = 1 ∧
    (formatPercentFromRaw (.str "7".toList)).count '-' = 0 ∧
    (formatPercentFromRaw (.str "7".toList)).head? = some '+' :=
  (format_percent_sign.2.2 (.str "7".toList) 7 (by decide)).1 (by norm_num)

theorem history_loader_no_effective_date_witness :
    loadRegimeHistory (.ok 200 (some histCsvC4)) = stripColumns histCsvC4 ∧
    specEffectiveDate ⟨2026, 2, 9⟩ = ⟨2026, 2, 10⟩ :=
  ⟨(history_loader_no_effective_date.1 histCsvC4).1,
    history_loader_no_effective_date.2.1⟩

theorem undefined_url_loaders_none_witness :
    loadLatestDir (fun _ => .error) = none ∧
    loadRegimeLatest (fun _ => .error) = none :=
  ⟨undefined_url_loaders_none.2.2.2.2.1 _, undefined_url_loaders_none.2.2.2.2.2 _⟩
